import Mathlib

/-!
Verification of the VU-AMS serial driver (src/vuams_serial.py).

Shallow embedding: the pure byte-level computations become Lean functions over
`List Nat` and `List Int`; the serial transport and the wall clock are modelled
as explicit environments (an optional response, a poll-outcome trace); a Python
return value used only for its truthiness is modelled by `Bool`, and a Python
`None` return by `Option`.
-/

namespace VuAms

/-! Packet codec: the `send_packet` method (vuams_serial.py lines 90-106). -/

/-- Byte normalization from line 92: `(p + 256) % 256` on a Python integer.
Lean's `Int` `%` is Euclidean remainder, which agrees with Python `%` for the
positive modulus 256. -/
def toByte (p : Int) : Int := (p + 256) % 256

/-- The normalized byte as a natural number, the value stored in the bytearray. -/
def byteOf (p : Int) : Nat := (toByte p).toNat

/-- One bit step of the zlib (ISO-3309) CRC-32: shift right, conditionally xor
the reflected polynomial 0xEDB88320. -/
def crc32_step (c : Nat) : Nat := if c % 2 = 1 then (c >>> 1) ^^^ 0xEDB88320 else c >>> 1

/-- Fold one byte into the CRC-32 accumulator: xor it in, then do eight bit
steps. -/
def crc32_byte (c b : Nat) : Nat := crc32_step^[8] (c ^^^ b)

/-- The `zlib.crc32` function over a byte list (line 95). -/
def crc32 (data : List Nat) : Nat := (data.foldl crc32_byte 0xFFFFFFFF) ^^^ 0xFFFFFFFF

/-- The checksum bytes appended by `send_packet` (line 96):
`[(crc >> (8 * i)) & 0xFF for i in range(4)]`, least significant byte first. -/
def crc_bytes (crc : Nat) : List Nat := (List.range 4).map (fun i => (crc >>> (8 * i)) &&& 0xFF)

/-- The wire frame `send_packet` writes (lines 92-99): normalized input bytes
followed by the four checksum bytes of line 96, with the mask of line 95. -/
def build_frame (packet : List Int) : List Nat :=
  packet.map byteOf ++ crc_bytes (crc32 (packet.map byteOf) &&& 0xFFFFFFFF)

/-- Checksum bytes in most-significant-byte-first order, as the spec's words
describe them; for the refinement comparison with `crc_bytes`, which is what
the code appends. -/
def crc_bytes_be (crc : Nat) : List Nat :=
  [(crc >>> 24) &&& 0xFF, (crc >>> 16) &&& 0xFF, (crc >>> 8) &&& 0xFF, crc &&& 0xFF]

/-! Bounds on the codec's arithmetic. -/

theorem byteOf_lt (p : Int) : byteOf p < 256 := by
  unfold byteOf toByte
  omega

theorem crc32_step_lt {c : Nat} (h : c < 2 ^ 32) : crc32_step c < 2 ^ 32 := by
  have h1 : c >>> 1 < 2 ^ 32 := by
    have h2 : c >>> 1 ≤ c := by
      rw [Nat.shiftRight_eq_div_pow]
      exact Nat.div_le_self c (2 ^ 1)
    omega
  unfold crc32_step
  split
  · exact Nat.xor_lt_two_pow h1 (by norm_num)
  · exact h1

theorem crc32_step_iterate_lt (n : Nat) {x : Nat} (h : x < 2 ^ 32) :
    crc32_step^[n] x < 2 ^ 32 := by
  induction n generalizing x with
  | zero => simpa using h
  | succ n ih =>
    rw [Function.iterate_succ_apply]
    exact ih (crc32_step_lt h)

theorem crc32_byte_lt {c b : Nat} (hc : c < 2 ^ 32) (hb : b < 2 ^ 32) :
    crc32_byte c b < 2 ^ 32 :=
  crc32_step_iterate_lt 8 (Nat.xor_lt_two_pow hc hb)

theorem crc32_lt (data : List Nat) (h : ∀ b ∈ data, b < 2 ^ 32) :
    crc32 data < 2 ^ 32 := by
  unfold crc32
  refine Nat.xor_lt_two_pow ?_ (by norm_num)
  have main : ∀ (l : List Nat) (acc : Nat), acc < 2 ^ 32 → (∀ b ∈ l, b < 2 ^ 32) →
      l.foldl crc32_byte acc < 2 ^ 32 := by
    intro l
    induction l with
    | nil =>
      intro acc hacc _
      simpa using hacc
    | cons b l ih =>
      intro acc hacc hl
      simp only [List.foldl_cons]
      exact ih _ (crc32_byte_lt hacc (hl b (by simp))) (fun x hx => hl x (by simp [hx]))
  exact main data 0xFFFFFFFF (by norm_num) h

theorem crc32_mask_eq (data : List Nat) (h : ∀ b ∈ data, b < 2 ^ 32) :
    crc32 data &&& 0xFFFFFFFF = crc32 data := by
  have hlt := crc32_lt data h
  have h2 : (0xFFFFFFFF : Nat) = 2 ^ 32 - 1 := by norm_num
  rw [h2, Nat.and_pow_two_sub_one_of_lt_two_pow hlt]

theorem crc32_mask_map (packet : List Int) :
    crc32 (packet.map byteOf) &&& 0xFFFFFFFF = crc32 (packet.map byteOf) := by
  refine crc32_mask_eq _ ?_
  intro b hb
  obtain ⟨p, _, rfl⟩ := List.mem_map.mp hb
  have := byteOf_lt p
  omega

theorem crc_bytes_explicit (c : Nat) :
    crc_bytes c = [c &&& 0xFF, (c >>> 8) &&& 0xFF, (c >>> 16) &&& 0xFF, (c >>> 24) &&& 0xFF] :=
  rfl

set_option maxRecDepth 8192 in
/-- Sanity check of the CRC-32 embedding against the standard zlib test vector:
the ASCII digits one through nine hash to 0xCBF43926. -/
theorem crc32_check_vector : crc32 [49, 50, 51, 52, 53, 54, 55, 56, 57] = 0xCBF43926 := by
  decide

set_option maxRecDepth 8192 in
/-- Claim C1 counterexample: for the concrete presence-request packet
`[8, 0, 1, 200]`, the four trailing bytes of the frame built by `send_packet`
are not the CRC-32 in most-significant-byte-first order; the code appends the
checksum least significant byte first (its own comment on line 96 notwithstanding). -/
theorem C1_counterexample :
    (build_frame [8, 0, 1, 200]).drop 4 ≠
      crc_bytes_be (crc32 (([8, 0, 1, 200] : List Int).map byteOf) &&& 0xFFFFFFFF) := by
  decide

/-- Claim C1 amended: the frame built by `send_packet` ends with the four
CRC-32 bytes of all preceding bytes appended in least-significant-byte-first
(little-endian) order, and the output length equals the input length plus 4. -/
theorem C1_amended (packet : List Int) :
    (build_frame packet).length = packet.length + 4 ∧
    (build_frame packet).drop packet.length =
      [crc32 (packet.map byteOf) &&& 0xFF,
       (crc32 (packet.map byteOf) >>> 8) &&& 0xFF,
       (crc32 (packet.map byteOf) >>> 16) &&& 0xFF,
       (crc32 (packet.map byteOf) >>> 24) &&& 0xFF] := by
  constructor
  · simp [build_frame, crc_bytes]
  · rw [build_frame, List.drop_left' (by simp), crc32_mask_map, crc_bytes_explicit]

/-- Claim C8 confirmed: every integer supplied to the packet codec, negative or
greater than 255 included, is normalized by `(p + 256) % 256` into a valid
byte equal to `p` modulo 256; the construction is total, so no input is
rejected. -/
theorem C8_mod256_wraparound (p : Int) :
    toByte p = p % 256 ∧ 0 ≤ toByte p ∧ toByte p < 256 ∧ byteOf p = (p % 256).toNat := by
  simp only [byteOf, toByte]
  refine ⟨?_, ?_, ?_, ?_⟩ <;> omega

/-! Poll-read loop: the `receive_packet` method (lines 108-126). The wall clock
and the transport are modelled as a trace: for every check time (in
milliseconds), the environment says what that iteration of the loop observes. -/

/-- What one iteration of the receive loop observes from the transport.
`dataReady d` models `in_waiting > 0` followed by a read returning `d`;
`noData` models `in_waiting == 0` followed by the 100 ms sleep; `raises`
models an exception from `in_waiting` or `read`; `interrupted` models a
`KeyboardInterrupt` during the iteration. -/
inductive PollOutcome where
  | noData : PollOutcome
  | dataReady : List Nat → PollOutcome
  | raises : PollOutcome
  | interrupted : PollOutcome
deriving DecidableEq

/-- The `while True` loop of `receive_packet`: first the deadline test of line
113, then the poll. On `raises` the exception reaches the `finally` clause of
line 125, whose `return data_received` discards it and yields `None`; on
`interrupted` the `except KeyboardInterrupt` of line 123 catches it and the
same `finally` yields `None`. After a `noData` check the loop sleeps 100 ms,
so the next check happens 100 ms later. Fuel bounds the recursion;
`receive_packet` supplies enough fuel that the deadline test always fires
before the fuel runs out. -/
def receive_loop (env : Nat → PollOutcome) (endTime : Nat) : Nat → Nat → Option (List Nat)
  | _, 0 => none
  | now, fuel + 1 =>
    if endTime < now then none
    else
      match env now with
      | PollOutcome.dataReady d => some d
      | PollOutcome.noData => receive_loop env endTime (now + 100) fuel
      | PollOutcome.raises => none
      | PollOutcome.interrupted => none

/-- The `receive_packet` method with times in milliseconds: the deadline is
`start + 1000 * timeout` (line 109) and checks are 100 ms apart (line 122). -/
def receive_packet (env : Nat → PollOutcome) (start timeout : Nat) : Option (List Nat) :=
  receive_loop env (start + 1000 * timeout) start (10 * timeout + 2)

/-- The `receive_packet` method with its default `timeout=3` seconds. -/
def receive_packet_default (env : Nat → PollOutcome) (start : Nat) : Option (List Nat) :=
  receive_packet env start 3

/-! Helper lemmas about the receive loop. -/

theorem receive_loop_none_of_noData (env : Nat → PollOutcome) (endTime : Nat)
    (h : ∀ t, env t = PollOutcome.noData) :
    ∀ fuel now, receive_loop env endTime now fuel = none := by
  intro fuel
  induction fuel with
  | zero => intro now; rfl
  | succ f ih =>
    intro now
    rw [receive_loop]
    split
    · rfl
    · rw [h now]
      exact ih (now + 100)

theorem receive_loop_none_of_halt (env : Nat → PollOutcome) (endTime : Nat) :
    ∀ (k now fuel : Nat), (∀ j, j < k → env (now + 100 * j) = PollOutcome.noData) →
      (env (now + 100 * k) = PollOutcome.raises ∨
        env (now + 100 * k) = PollOutcome.interrupted) →
      now + 100 * k ≤ endTime → k < fuel →
      receive_loop env endTime now fuel = none := by
  intro k
  induction k with
  | zero =>
    intro now fuel _ hhalt hle hfuel
    obtain ⟨f, rfl⟩ : ∃ f, fuel = f + 1 := ⟨fuel - 1, by omega⟩
    rw [receive_loop]
    have hnow : ¬ endTime < now := by omega
    rw [if_neg hnow]
    have h0 : now + 100 * 0 = now := by omega
    rw [h0] at hhalt
    rcases hhalt with h | h <;> rw [h]
  | succ k ih =>
    intro now fuel hpre hhalt hle hfuel
    obtain ⟨f, rfl⟩ : ∃ f, fuel = f + 1 := ⟨fuel - 1, by omega⟩
    rw [receive_loop]
    have hnow : ¬ endTime < now := by omega
    rw [if_neg hnow]
    have h0 : env now = PollOutcome.noData := by
      have := hpre 0 (by omega)
      simpa using this
    rw [h0]
    refine ih (now + 100) f ?_ ?_ ?_ (by omega)
    · intro j hj
      have := hpre (j + 1) (by omega)
      have harith : now + 100 * (j + 1) = now + 100 + 100 * j := by ring
      rwa [harith] at this
    · have harith : now + 100 * (k + 1) = now + 100 + 100 * k := by ring
      rwa [harith] at hhalt
    · omega

/-- Claim C6 confirmed: the poll-read loop checks for available bytes on the
100 ms schedule encoded in `receive_loop`; with the default deadline of 3
seconds, a transport that never has data makes `receive_packet` give up and
return `none` rather than fail, and a `KeyboardInterrupt` during the wait
(before any data and before the deadline) also ends the call with `none`
rather than propagating. -/
theorem C6_poll_read (env : Nat → PollOutcome) (start : Nat) :
    ((∀ t, env t = PollOutcome.noData) → receive_packet_default env start = none) ∧
    (∀ k, (∀ j, j < k → env (start + 100 * j) = PollOutcome.noData) →
      env (start + 100 * k) = PollOutcome.interrupted → 100 * k ≤ 3000 →
      receive_packet_default env start = none) := by
  constructor
  · intro h
    exact receive_loop_none_of_noData env _ h _ start
  · intro k hpre hintr hk
    refine receive_loop_none_of_halt env _ k start _ hpre (Or.inr hintr) (by omega) (by omega)

/-- Claim C6 witness: a transport with no data times out to `none`, and one
that raises `KeyboardInterrupt` at the first check yields `none`. -/
theorem C6_poll_read_witness :
    receive_packet_default (fun _ => PollOutcome.noData) 0 = none ∧
    receive_packet_default (fun _ => PollOutcome.interrupted) 0 = none := by
  constructor
  · exact (C6_poll_read (fun _ => PollOutcome.noData) 0).1 (fun _ => rfl)
  · exact (C6_poll_read (fun _ => PollOutcome.interrupted) 0).2 0
      (fun j hj => absurd hj (by omega)) rfl (by omega)

/-- Claim C9 confirmed: because the `try` block of `receive_packet` ends in a
`finally` clause that returns `data_received`, every exception raised while
polling the transport, not only the documented `KeyboardInterrupt`, is
discarded and the call returns `none`: a `raises` outcome at any reachable
check before data arrives yields `none`. -/
theorem C9_no_exception_propagation (env : Nat → PollOutcome) (start timeout k : Nat)
    (hpre : ∀ j, j < k → env (start + 100 * j) = PollOutcome.noData)
    (hraise : env (start + 100 * k) = PollOutcome.raises)
    (hk : 100 * k ≤ 1000 * timeout) :
    receive_packet env start timeout = none :=
  receive_loop_none_of_halt env _ k start _ hpre (Or.inl hraise) (by omega) (by omega)

/-- Claim C9 witness: a transport whose byte-count query raises at the first
check makes `receive_packet` return `none`. -/
theorem C9_no_exception_propagation_witness :
    receive_packet (fun _ => PollOutcome.raises) 0 3 = none :=
  C9_no_exception_propagation (fun _ => PollOutcome.raises) 0 3 0
    (fun j hj => absurd hj (by omega)) rfl (by omega)

/-! Response decoding and the session state machine (lines 22-41, 63-88,
129-137). -/

/-- A Python truthiness test for an optional byte string, as in `if r:`. -/
def pyTruthy (r : Option (List Nat)) : Bool :=
  match r with
  | none => false
  | some d => !d.isEmpty

/-- The presence check of `is_device_present` (lines 129-137) applied to the
raw response to the parameter-200 request: truthy byte data whose first 8
bytes are `[12, 0, 129, 200, 65, 77, 83, 50]`. The method's falsy returns,
Python `None` from the fall-through and `False` from the `except` branch, are
both modelled as `false`, matching how every caller uses the result. -/
def is_device_present (resp : Option (List Nat)) : Bool :=
  match resp with
  | none => false
  | some d => !d.isEmpty && (d.take 8 == [12, 0, 129, 200, 65, 77, 83, 50])

/-- Session state of `AmsDevice`: the `isConnected` flag and the serial-port
handle, `none` before any open and `some b` for a handle whose open status is
`b`. -/
structure DeviceState where
  isConnected : Bool
  serialPort : Option Bool
deriving DecidableEq

/-- The state set up by `__init__` (lines 32-41). -/
def initState : DeviceState := { isConnected := false, serialPort := none }

/-- The `disconnect` method (lines 85-88): close the port if there is a handle,
then clear the flag. -/
def disconnect (st : DeviceState) : DeviceState :=
  { isConnected := false,
    serialPort :=
      match st.serialPort with
      | none => none
      | some _ => some false }

/-- The `connect` method (lines 63-83). `openOk` models whether the
`serial.Serial(...)` constructor succeeds; `resp` is the transport's response
to the presence request issued through `is_device_present`. Returns the new
state and the boolean result. -/
def connect (openOk : Bool) (resp : Option (List Nat)) (st : DeviceState) :
    DeviceState × Bool :=
  if openOk then
    let st1 : DeviceState := { st with serialPort := some true }
    if is_device_present resp then ({ st1 with isConnected := true }, true)
    else (disconnect st1, false)
  else (st, false)

/-- Claim C2 confirmed: the presence check is true exactly when the first 8
response bytes equal the fixed sequence `[12, 0, 129, 200, 65, 77, 83, 50]`;
a shorter or differing prefix, or an absent response, gives false, and the
check is a total function, so it raises nothing. -/
theorem C2_presence_check (d : List Nat) :
    (is_device_present (some d) = true ↔ d.take 8 = [12, 0, 129, 200, 65, 77, 83, 50]) ∧
    is_device_present none = false := by
  refine ⟨⟨fun h => ?_, fun h => ?_⟩, rfl⟩
  · simp only [is_device_present, Bool.and_eq_true, beq_iff_eq] at h
    exact h.2
  · simp only [is_device_present, Bool.and_eq_true, beq_iff_eq]
    refine ⟨?_, h⟩
    cases d with
    | nil => simp at h
    | cons a l => simp

/-- Claim C5 confirmed: when the transport opens but the presence confirmation
fails, `connect` returns false, closes the port, and leaves `isConnected`
false; moreover with a failed presence confirmation no call to `connect`,
whatever the open outcome, can move a disconnected session to Connected. -/
theorem C5_connect_failure (st : DeviceState) (resp : Option (List Nat))
    (h : is_device_present resp = false) :
    (connect true resp st).2 = false ∧
    (connect true resp st).1.isConnected = false ∧
    (connect true resp st).1.serialPort = some false ∧
    (∀ openOk, st.isConnected = false → (connect openOk resp st).1.isConnected = false) := by
  refine ⟨?_, ?_, ?_, ?_⟩
  · simp [connect, h]
  · simp [connect, h, disconnect]
  · simp [connect, h, disconnect]
  · intro openOk hst
    cases openOk with
    | false => simpa [connect] using hst
    | true => simp [connect, h, disconnect]

/-- Claim C5 witness: a freshly constructed device whose transport opens but
whose presence request goes unanswered ends disconnected with the port
closed. -/
theorem C5_connect_failure_witness :
    (connect true none initState).2 = false ∧
    (connect true none initState).1.isConnected = false ∧
    (connect true none initState).1.serialPort = some false ∧
    (∀ openOk, initState.isConnected = false →
      (connect openOk none initState).1.isConnected = false) :=
  C5_connect_failure initState none rfl

/-! Facade commands (lines 139-143, 164-175, 177-202, 204-211). -/

/-- The request frame of `get_parameter_from_device` (line 172): `[8, 0, 1, par]`. -/
def get_parameter_frame (par : Int) : List Int := [8, 0, 1, par]

/-- The frame `sync_time` builds (line 193): the protocol header, whose first
byte is 8 plus the payload length, prepended to the time fields. -/
def sync_time_frame (timeArray : List Int) : List Int :=
  [8 + (timeArray.length : Int), 0, 6, 0] ++ timeArray

/-- The `send_command` method (lines 204-211): write `build_frame [8, 0, 11, com]`,
receive, and report whether the response is truthy. `resp` stands for what
`receive_packet` returned; the first component is the wire frame written. -/
def send_command (com : Int) (resp : Option (List Nat)) : List Nat × Bool :=
  (build_frame [8, 0, 11, com], pyTruthy resp)

/-- The `start_recording` method (lines 139-140): calls `send_command 5` and
returns Python `None`; the boolean from `send_command` is discarded. -/
def start_recording (resp : Option (List Nat)) : List Nat × Option Bool :=
  ((send_command 5 resp).1, none)

/-- The `stop_recording` method (lines 142-143): calls `send_command 6` and
returns Python `None`. -/
def stop_recording (resp : Option (List Nat)) : List Nat × Option Bool :=
  ((send_command 6 resp).1, none)

set_option maxRecDepth 8192 in
/-- Claim C3 counterexample: even when a response is received (here the
non-empty `[1]`), `start_recording` does not return true; it returns Python
`None`, discarding the boolean computed by `send_command`. -/
theorem C3_counterexample : (start_recording (some [1])).2 ≠ some true := by
  decide

set_option maxRecDepth 8192 in
/-- Concrete wire frame of the start command, checksum included. -/
theorem build_frame_start_cmd : build_frame [8, 0, 11, 5] = [8, 0, 11, 5, 183, 218, 110, 119] := by
  decide

set_option maxRecDepth 8192 in
/-- Concrete wire frame of the stop command, checksum included. -/
theorem build_frame_stop_cmd : build_frame [8, 0, 11, 6] = [8, 0, 11, 6, 13, 139, 103, 238] := by
  decide

/-- Claim C3 amended: `start_recording` and `stop_recording` each send the
frame `[8, 0, 11, cmd]` with cmd 5 and 6 respectively through the shared
`send_command` primitive, whose boolean is true exactly when a truthy
(non-empty) response arrives before the timeout; the two recording methods
discard that boolean and return `None`. The concrete frames, checksum
included, are stated explicitly. -/
theorem C3_amended (resp : Option (List Nat)) (com : Int) :
    (start_recording resp).1 = [8, 0, 11, 5, 183, 218, 110, 119] ∧
    (stop_recording resp).1 = [8, 0, 11, 6, 13, 139, 103, 238] ∧
    ((send_command com resp).2 = true ↔ ∃ d, resp = some d ∧ d ≠ []) ∧
    (start_recording resp).2 = none ∧
    (stop_recording resp).2 = none := by
  refine ⟨build_frame_start_cmd, build_frame_stop_cmd, ?_, rfl, rfl⟩
  cases resp with
  | none => simp [send_command, pyTruthy]
  | some d => simp [send_command, pyTruthy]

/-! Marker frames: the `send_marker` method (lines 213-238). Characters are
modelled by their Unicode code points. -/

/-- The ascii `replace` encoding of one character (line 216): code points above
127 become the replacement byte 63, the question mark. -/
def ascii_replace (c : Nat) : Nat := if c ≤ 127 then c else 63

/-- The processed marker text (lines 214-217): truncate to 32 characters,
encode with ascii-replace, then replace every 63 by 95, the underscore. -/
def marker_text (s : List Nat) : List Nat :=
  ((s.take 32).map ascii_replace).map (fun c => if c = 63 then 95 else c)

/-- Write the characters of `t` into `b` at consecutive indices starting at
`i`: the fill loop of lines 234-235. -/
def fillChars : List Nat → Nat → List Nat → List Nat
  | b, _, [] => b
  | b, i, c :: t => fillChars (b.set i c) (i + 1) t

/-- The 52-byte array after the constant assignments of lines 219-231. -/
def marker_base : List Nat :=
  ((((((((((List.replicate 52 0).set 0 56).set 2 14).set 4 3).set 6 48).set 8
    17).set 9 17).set 10 17).set 11 17).set 12 1).set 16 4

/-- The frame `send_marker` builds (lines 213-238), before `send_packet`
appends the checksum. -/
def send_marker_frame (s : List Nat) : List Nat :=
  fillChars marker_base 20 (marker_text s)

/-- The first 20 bytes of every marker frame. -/
def markerHeader : List Nat :=
  [56, 0, 14, 0, 3, 0, 48, 0, 17, 17, 17, 17, 1, 0, 0, 0, 4, 0, 0, 0]

/-- Character processing as claim C7's words describe it: only the non-ASCII
characters, those above 127, become the underscore 95; for the refinement
comparison with `marker_text`, which also rewrites the question mark 63. -/
def spec_marker_char (c : Nat) : Nat := if c ≤ 127 then c else 95

/-! Helper lemmas about the marker frame. -/

theorem marker_base_eq : marker_base = markerHeader ++ List.replicate 32 0 := by decide

theorem fillChars_append (t : List Nat) :
    ∀ pre pad : List Nat, t.length ≤ pad.length →
      fillChars (pre ++ pad) pre.length t = pre ++ t ++ pad.drop t.length := by
  induction t with
  | nil =>
    intro pre pad _
    simp [fillChars]
  | cons c t ih =>
    intro pre pad hlen
    cases pad with
    | nil => simp at hlen
    | cons p pad =>
      have key := ih (pre ++ [c]) pad (by simp at hlen ⊢; omega)
      have e1 : (pre ++ [c]) ++ pad = pre ++ c :: pad := by simp
      have e2 : (pre ++ [c]).length = pre.length + 1 := by simp
      rw [e1, e2] at key
      rw [fillChars, List.set_append_right _ _ (Nat.le_refl _), Nat.sub_self]
      simp [key]

theorem marker_text_length_le (s : List Nat) : (marker_text s).length ≤ 32 := by
  simp [marker_text]

theorem send_marker_frame_eq (s : List Nat) :
    send_marker_frame s =
      markerHeader ++ (marker_text s ++ List.replicate (32 - (marker_text s).length) 0) := by
  have h := fillChars_append (marker_text s) markerHeader (List.replicate 32 0)
    (by simpa using marker_text_length_le s)
  rw [send_marker_frame, marker_base_eq,
    show (20 : Nat) = markerHeader.length from rfl, h, List.drop_replicate,
    List.append_assoc]

theorem send_marker_frame_length (s : List Nat) : (send_marker_frame s).length = 52 := by
  have hle := marker_text_length_le s
  rw [send_marker_frame_eq]
  simp [markerHeader]
  omega

set_option maxRecDepth 8192 in
/-- Claim C4 counterexample: the presence request frame `[8, 0, 1, 200]` built
by `get_parameter_from_device` declares length 8 in its first byte while its
pre-checksum byte count is 4, so the declared length byte does not equal the
pre-checksum byte count. -/
theorem C4_counterexample :
    (get_parameter_frame 200).getD 0 0 ≠ ((get_parameter_frame 200).length : Int) := by
  decide

/-- Claim C4 amended: for every outbound frame built by the facade through
`get_parameter_from_device`, `sync_time` and `send_marker`, the declared
length byte equals the pre-checksum byte count plus 4, that is, the total
frame length once `send_packet` appends the 4 checksum bytes. -/
theorem C4_declared_length (par : Int) (timeArray : List Int) (s : List Nat) :
    (get_parameter_frame par).getD 0 0 = ((get_parameter_frame par).length : Int) + 4 ∧
    (sync_time_frame timeArray).getD 0 0 = ((sync_time_frame timeArray).length : Int) + 4 ∧
    (send_marker_frame s).getD 0 0 = (send_marker_frame s).length + 4 := by
  refine ⟨rfl, ?_, ?_⟩
  · simp [sync_time_frame]
    ring
  · rw [send_marker_frame_length, send_marker_frame_eq]
    rfl

set_option maxRecDepth 8192 in
/-- Claim C7 counterexample: for the one-character marker consisting of the
ASCII question mark, code point 63, the frame byte at index 20 is 95, the
underscore, not the 63 that a processing replacing only non-ASCII characters
would leave there. -/
theorem C7_counterexample :
    (send_marker_frame [63]).getD 20 0 ≠ ([63].map spec_marker_char).getD 0 0 := by
  decide

/-- Claim C7 amended: for every marker string, `send_marker` builds a 52-byte
frame whose first 20 bytes are the constant header, holding the fixed values
at indices 0, 2, 4, 6, 8 through 12, and 16 and zeros elsewhere; the
processed text, truncated to the first 32 characters with the non-ASCII
characters and the ASCII question mark replaced by underscore, occupies the
bytes from index 20 on, and the remaining payload bytes are zero. -/
theorem C7_marker_frame (s : List Nat) :
    (send_marker_frame s).length = 52 ∧
    (send_marker_frame s).take 20 = markerHeader ∧
    (send_marker_frame s).drop 20 =
      marker_text s ++ List.replicate (32 - (marker_text s).length) 0 ∧
    marker_text s = (s.take 32).map (fun c => if c ≤ 127 ∧ c ≠ 63 then c else 95) := by
  refine ⟨send_marker_frame_length s, ?_, ?_, ?_⟩
  · rw [send_marker_frame_eq, show (20 : Nat) = markerHeader.length from rfl, List.take_left]
  · rw [send_marker_frame_eq, show (20 : Nat) = markerHeader.length from rfl, List.drop_left]
  · rw [marker_text, List.map_map]
    congr 1
    funext c
    simp only [Function.comp_apply, ascii_replace]
    by_cases h1 : c ≤ 127
    · by_cases h2 : c = 63 <;> simp [h1, h2]
    · simp [h1]

/-- Claim C10 confirmed: every literal ASCII question mark in the caller's
marker text, not only the placeholder produced for non-ASCII characters, is
replaced by an underscore, because the post-encoding normalization of line
217 replaces all question marks: if character `i` of the text, within the
32-character truncation, is code point 63, then byte `20 + i` of the built
frame is 95. -/
theorem C10_question_mark (s : List Nat) (i : Nat) (h1 : i < s.length) (h2 : i < 32)
    (h3 : s.getD i 0 = 63) :
    (send_marker_frame s).getD (20 + i) 0 = 95 := by
  have hlen_t : (marker_text s).length = min 32 s.length := by simp [marker_text]
  have hit : i < (marker_text s).length := by omega
  have htk : i < (s.take 32).length := by simp; omega
  rw [send_marker_frame_eq,
    List.getD_append_right _ _ _ _ (by simp [markerHeader]),
    show (20 : Nat) + i - markerHeader.length = i from by simp [markerHeader],
    List.getD_append _ _ _ _ hit,
    List.getD_eq_getElem _ _ hit]
  rw [List.getD_eq_getElem _ _ h1] at h3
  simp [marker_text, ascii_replace, List.getElem_take, h3]

/-- Claim C10 witness: the single-character marker consisting of a question
mark produces a frame whose byte at index 20 is the underscore 95. -/
theorem C10_question_mark_witness : (send_marker_frame [63]).getD (20 + 0) 0 = 95 :=
  C10_question_mark [63] 0 (by decide) (by decide) rfl

end VuAms
